import Mathlib

/-!
Verification of the core tabular pipeline of the CRISPR Score Analyzer
(src/app.py): column classification, gene rank building, gene name
matching and lineage aggregation.

The embedding models a pandas DataFrame as a list of named columns, a
numeric column as a list of optional rationals (a missing entry, NaN in
pandas, is `none`), and a non-numeric column as a list of optional
strings.  Floating-point arithmetic of the source is modelled by exact
rational arithmetic.  pandas `Series.std()` (sample standard deviation,
ddof = 1) is compared against 0.01 in the source; since both sides are
non-negative and squaring is monotone there, the embedding compares the
sample variance against 0.01 ^ 2, avoiding square roots.
-/

attribute [local semireducible] Rat.add Rat.mul Rat.sub Rat.inv

namespace CrisprApp

/-- Python `str.upper()` (ASCII case mapping, which covers every string
appearing in the analysed pipeline). -/
def sUpper (s : String) : String :=
  String.mk (s.toList.map Char.toUpper)

/-- Python `str.lower()` (ASCII case mapping). -/
def sLower (s : String) : String :=
  String.mk (s.toList.map Char.toLower)

/-- Helper for `containsSub`: does the second list start with the first? -/
def leadsWith : List Char → List Char → Bool
  | [], _ => true
  | _ :: _, [] => false
  | c :: cs, d :: ds => c == d && leadsWith cs ds

/-- Python substring test `needle in hay` on strings, as character lists. -/
def containsSub (needle : List Char) : List Char → Bool
  | [] => needle.isEmpty
  | d :: ds => leadsWith needle (d :: ds) || containsSub needle ds

/-- Values of one DataFrame column: either of numeric dtype (entries are
rationals, `none` for NaN) or of non-numeric dtype (entries are strings,
`none` for NaN). -/
inductive ColVals where
  | num (vals : List (Option ℚ))
  | txt (vals : List (Option String))
deriving DecidableEq, Repr

/-- A DataFrame: its row count (`len(df)`) and its named columns in
insertion order. -/
structure Table where
  nrows : ℕ
  cols : List (String × ColVals)
deriving DecidableEq, Repr

/-- The column's non-missing values, in order: `df[col].dropna()` for a
numeric column (a non-numeric column has no numeric values). -/
def ColVals.nonMissing : ColVals → List ℚ
  | .num vs => vs.filterMap id
  | .txt _ => []

/-- pandas `pd.api.types.is_numeric_dtype(df[col])`. -/
def ColVals.isNumericDtype : ColVals → Bool
  | .num _ => true
  | .txt _ => false

/-- Number of entries of the column (missing entries included). -/
def ColVals.size : ColVals → ℕ
  | .num vs => vs.length
  | .txt vs => vs.length

/-- A single table cell, numeric or textual, possibly missing. -/
inductive Cell where
  | num (q : Option ℚ)
  | txt (s : Option String)
deriving DecidableEq, Repr

/-- The column's entries as generic cells, in row order. -/
def ColVals.cells : ColVals → List Cell
  | .num vs => vs.map Cell.num
  | .txt vs => vs.map Cell.txt

/-- `df.columns`, in order. -/
def Table.colNames (t : Table) : List String :=
  t.cols.map Prod.fst

/-- Column lookup by name, `df[name]` (first column of that name). -/
def Table.getCol? (t : Table) (name : String) : Option ColVals :=
  (t.cols.find? (fun c => c.1 == name)).map (fun c => c.2)

/-- A well-formed DataFrame: every column has exactly `nrows` entries. -/
def Table.Rect (t : Table) : Prop :=
  ∀ c ∈ t.cols, c.2.size = t.nrows

instance (t : Table) : Decidable t.Rect :=
  inferInstanceAs (Decidable (∀ c ∈ t.cols, c.2.size = t.nrows))

/-- pandas `Series.mean()` over the given (already non-missing) values. -/
def qmean (xs : List ℚ) : ℚ :=
  xs.sum / (xs.length : ℚ)

/-- The square of pandas `Series.std()` (ddof = 1), i.e. the sample
variance, over the given (already non-missing) values. -/
def qvar (xs : List ℚ) : ℚ :=
  (xs.map (fun x => (x - qmean xs) ^ 2)).sum / ((xs.length : ℚ) - 1)

/-- app.py lines 161-163: the guard applied before any statistics are
computed for a column — the column must be of numeric dtype and
`len(df[col].dropna()) > 10` must hold. -/
def passes_prefilter (cv : ColVals) : Bool :=
  cv.isNumericDtype && decide (10 < cv.nonMissing.length)

/-- app.py line 167: `-5 < mean_val < 2 and std_val > 0.01`, with the
standard-deviation comparison expressed on variances (see module note). -/
def passes_stats (cv : ColVals) : Bool :=
  decide (-5 < qmean cv.nonMissing) && decide (qmean cv.nonMissing < 2) &&
    decide ((1 / 100 : ℚ) ^ 2 < qvar cv.nonMissing)

/-- app.py lines 157-172: a column is classified as a score column iff it
survives the prefilter and the mean/std test. -/
def isScoreCol (c : String × ColVals) : Bool :=
  passes_prefilter c.2 && passes_stats c.2

/-- app.py `gene_cols` as built by the classification loop, in column
insertion order. -/
def gene_cols (t : Table) : List (String × ColVals) :=
  t.cols.filter isScoreCol

/-- app.py `meta_cols`: every column not classified as a score column, in
column insertion order. -/
def meta_cols (t : Table) : List (String × ColVals) :=
  t.cols.filter (fun c => !isScoreCol c)

/-- Characters of the regex class `[A-Za-z0-9_.-]` in
`extract_gene_name` (app.py line 145). -/
def isGeneChar (c : Char) : Bool :=
  c.isAlpha || c.isDigit || c == '_' || c == '.' || c == '-'

/-- Python regex `\s` on the ASCII range: space, tab, newline, carriage
return, vertical tab, form feed. -/
def isPySpace (c : Char) : Bool :=
  c == ' ' || c == '\t' || c == '\n' || c == '\r' ||
    c == Char.ofNat 11 || c == Char.ofNat 12

/-- Core of `extract_gene_name` on character lists.  The source matches
the anchored regex `^([A-Za-z0-9_.-]+)\s*\(` with `re.match` and returns
group 1 on success, the whole name otherwise.  Since the gene-character
class is disjoint from whitespace and from the parenthesis, that match
succeeds iff the maximal leading gene-character run is non-empty and is
followed, after a whitespace run, by a parenthesis. -/
def extractGeneList (cs : List Char) : List Char :=
  let p := cs.takeWhile isGeneChar
  let rest := (cs.dropWhile isGeneChar).dropWhile isPySpace
  if !p.isEmpty && rest.head? == some '(' then p else cs

/-- app.py lines 141-148: extract a display gene symbol from a raw column
name, supporting the "SYMBOL (ID)" encoding. -/
def extract_gene_name (col_name : String) : String :=
  String.mk (extractGeneList col_name.toList)

/-- One row of the ranking DataFrame built at app.py lines 181-190. -/
structure GeneRankEntry where
  gene_raw : String
  gene : String
  mean_score : ℚ
  rank : ℕ
  percentile : ℚ
  gene_upper : String
deriving DecidableEq, Repr

/-- The ranking row at 0-based position `i` of the sorted mean-score
series, for a ranking of `N` rows (app.py lines 181-190). -/
def mkEntry (N i : ℕ) (c : String × ℚ) : GeneRankEntry :=
  { gene_raw := c.1
    gene := extract_gene_name c.1
    mean_score := c.2
    rank := i + 1
    percentile := (((i + 1 : ℕ) : ℚ) / (N : ℚ)) * 100
    gene_upper := sUpper (extract_gene_name c.1) }

/-- The ranking DataFrame rows built positionally from the sorted
mean-score series, starting at 0-based position `i`. -/
def rankRows (N : ℕ) : ℕ → List (String × ℚ) → List GeneRankEntry
  | _, [] => []
  | i, c :: rest => mkEntry N i c :: rankRows N (i + 1) rest

/-- Comparison used to sort the mean-score series ascending
(app.py line 178, `sort_values()`). -/
def scoreLE (a b : String × ℚ) : Prop :=
  a.2 ≤ b.2

instance : DecidableRel scoreLE :=
  fun a b => inferInstanceAs (Decidable (a.2 ≤ b.2))

instance : IsTotal (String × ℚ) scoreLE :=
  ⟨fun a b => le_total a.2 b.2⟩

instance : IsTrans (String × ℚ) scoreLE :=
  ⟨fun _ _ _ h1 h2 => le_trans h1 h2⟩

/-- The error message of app.py line 175. -/
def NO_SCORE_COLS_MSG : String :=
  "未找到符合CRISPR score特征的数值列"

/-- app.py lines 150-192, `compute_gene_rankings`: classify columns,
compute each score column's mean (ignoring missing values), sort
ascending by mean, and build the ranking rows; on failure return the
error message of line 175.  The source returns the triple
`(rankings, len(df), None)` on success and `(None, 0, msg)` on failure,
embedded here as an `Except`.  The sort is embedded as a (stable)
insertion sort; the source uses `sort_values()` with pandas' default
quicksort, whose tie order is implementation-defined, so any property
proved below about the ranking is independent of the order of equal
means. -/
def compute_gene_rankings (t : Table) :
    Except String (List GeneRankEntry × ℕ) :=
  if (gene_cols t).isEmpty then
    Except.error NO_SCORE_COLS_MSG
  else
    let mean_scores :=
      List.insertionSort scoreLE ((gene_cols t).map (fun c => (c.1, qmean c.2.nonMissing)))
    Except.ok (rankRows mean_scores.length 0 mean_scores, t.nrows)

/-- The pandas dtype label shown for a column in the diagnostic panel. -/
def dtypeName : ColVals → String
  | .num _ => "float64"
  | .txt _ => "object"

/-- app.py lines 525-529: the diagnostic shown to the user when no score
column was found — the first 10 column names, the table shape
(rows, column count), and the first 15 column dtypes. -/
def ranking_failure_diagnostics (t : Table) :
    List String × (ℕ × ℕ) × List String :=
  (t.colNames.take 10, (t.nrows, t.cols.length),
    (t.cols.map (fun c => dtypeName c.2)).take 15)

/-- app.py lines 194-203, `filter_genes_by_list`: resolve a requested
gene list against the ranking rows, case-insensitively. -/
def filter_genes_by_list (gene_rank_df : List GeneRankEntry)
    (gene_list : List String) : List String × List String :=
  let gene_list_upper := gene_list.map sUpper
  let matched := gene_rank_df.filter (fun e => gene_list_upper.contains e.gene_upper)
  let matched_genes := matched.map (fun e => e.gene)
  let matched_upper := matched.map (fun e => e.gene_upper)
  let not_found := gene_list.filter (fun g => !matched_upper.contains (sUpper g))
  (matched_genes, not_found)

/-- app.py line 209: `'lineage' in col.lower() and 'sub' not in col.lower()`. -/
def isLineageColName (name : String) : Bool :=
  containsSub "lineage".toList (sLower name).toList &&
    !containsSub "sub".toList (sLower name).toList

/-- app.py lines 207-211: the first column whose name contains "lineage"
case-insensitively and does not contain "sub" case-insensitively. -/
def find_lineage_col (t : Table) : Option String :=
  t.colNames.find? isLineageColName

/-- app.py line 217, `df_cols_upper = {c.upper(): c for c in df.columns}`
followed by `.get(key)`: on duplicate uppercased names the later column
overwrites the earlier one in the dict, hence the reversed search. -/
def df_cols_upper_get (t : Table) (key : String) : Option String :=
  t.colNames.reverse.find? (fun c => sUpper c == key)

/-- The cells of the named column (empty when the column is absent). -/
def cellsOf (t : Table) (name : String) : List Cell :=
  ((t.getCol? name).map ColVals.cells).getD []

/-- One long-format record of app.py lines 226-228: the renamed two-column
frame `temp` with the added constant `gene` column. -/
structure LineageRecord where
  lineage : Cell
  crispr_score : Cell
  gene : String
deriving DecidableEq, Repr

/-- app.py lines 226-229 for one resolved gene column: pair each row's
lineage cell with the gene column's cell and tag it with the gene's
actual column name. -/
def gene_block (t : Table) (lineage_col gene : String) : List LineageRecord :=
  ((cellsOf t lineage_col).zip (cellsOf t gene)).map
    (fun p => { lineage := p.1, crispr_score := p.2, gene := gene })

/-- app.py lines 205-233, `get_lineage_data`: locate the lineage column,
resolve each requested symbol to its actual column name via the
uppercased-name dict, emit the long-format records for each resolved
gene, and concatenate them; `none` models every `return None` path. -/
def get_lineage_data (t : Table) (genes : List String) :
    Option (List LineageRecord) :=
  match find_lineage_col t with
  | none => none
  | some lineage_col =>
    let actual_genes := genes.filterMap (fun g => df_cols_upper_get t (sUpper g))
    if actual_genes.isEmpty then none
    else
      let result := actual_genes.filterMap (fun gene =>
        if t.colNames.contains gene then some (gene_block t lineage_col gene)
        else none)
      if result.isEmpty then none else some result.flatten

/-- The score-column classification rule as the specification states it:
numeric dtype, more than 10 non-missing values, mean strictly between -5
and 2, standard deviation strictly greater than 0.01 (expressed on the
variance, see module note). -/
def scoreColumnSpec (c : String × ColVals) : Prop :=
  c.2.isNumericDtype = true ∧ 10 < c.2.nonMissing.length ∧
    -5 < qmean c.2.nonMissing ∧ qmean c.2.nonMissing < 2 ∧
    (1 / 100 : ℚ) ^ 2 < qvar c.2.nonMissing

instance (c : String × ColVals) : Decidable (scoreColumnSpec c) := by
  unfold scoreColumnSpec
  infer_instance

/-- The shape of column names matched by the symbol-extraction regex
`^([A-Za-z0-9_.-]+)\s*\(`: a non-empty leading gene-character token,
then a whitespace run, then a parenthesis. -/
def HasSymbolPattern (cs : List Char) : Prop :=
  ∃ p w r, cs = p ++ w ++ '(' :: r ∧ p ≠ [] ∧
    (∀ c ∈ p, isGeneChar c = true) ∧ (∀ c ∈ w, isPySpace c = true)

/-- Example numeric column: twelve non-missing values, mean -23/12,
positive variance — a score column. -/
def exColA : ColVals :=
  .num [some (-2), some (-2), some (-2), some (-2), some (-2), some (-2),
    some (-2), some (-2), some (-2), some (-2), some (-2), some (-1)]

/-- Example numeric column: twelve non-missing values, mean 1/2,
positive variance — a score column. -/
def exColB : ColVals :=
  .num [some 0, some 0, some 0, some 0, some 0, some 0,
    some 1, some 1, some 1, some 1, some 1, some 1]

/-- Example lineage column for the 12-row table. -/
def exLineageVals : ColVals :=
  .txt [some "Lung", some "Skin", some "Lung", some "Skin", some "Lung", some "Skin",
    some "Lung", some "Skin", some "Lung", some "Skin", some "Lung", some "Skin"]

/-- Example 12-row table with one metadata column and two score columns. -/
def exRankTable : Table :=
  { nrows := 12
    cols := [("Lineage", exLineageVals), ("PTEN", exColB), ("MYC (4609)", exColA)] }

/-- Example table with a primary lineage column, a sub-lineage column and
one gene column. -/
def exLineage3 : Table :=
  { nrows := 2
    cols := [("Lineage", .txt [some "Lung", some "Skin"]),
      ("Lineage_Sub_type", .txt [some "NSCLC", some "Melanoma"]),
      ("MYC (4609)", .num [some (-1), some 0])] }

/-- Example table without any lineage column. -/
def exNoLineageTable : Table :=
  { nrows := 1
    cols := [("CellLine", .txt [some "A549"]), ("MYC (4609)", .num [some (-1)])] }

/-- Example table whose only column is non-numeric, so no score column
exists. -/
def exMetaTable : Table :=
  { nrows := 1, cols := [("CellLine", .txt [some "A549"])] }

/-- Example numeric column with exactly 10 non-missing values, mean 1/2
and positive variance. -/
def exCol10 : ColVals :=
  .num [some 0, some 1, some 0, some 1, some 0, some 1, some 0, some 1,
    some 0, some 1]

/-- Example numeric column with twelve identical non-missing values (mean
0, standard deviation 0). -/
def exConstCol : ColVals :=
  .num (List.replicate 12 (some 0))

/-- Example ranking rows used by the matcher claims: three ranked genes
MYC, KRAS, PTEN. -/
def exampleRanking : List GeneRankEntry :=
  [{ gene_raw := "MYC (4609)", gene := "MYC", mean_score := -2, rank := 1,
     percentile := mkRat 100 3, gene_upper := "MYC" },
   { gene_raw := "KRAS (3845)", gene := "KRAS", mean_score := -1, rank := 2,
     percentile := mkRat 200 3, gene_upper := "KRAS" },
   { gene_raw := "PTEN", gene := "PTEN", mean_score := 0, rank := 3,
     percentile := 100, gene_upper := "PTEN" }]

theorem takeWhile_dropWhile_split (f : Char → Bool) (p rest : List Char)
    (hp : ∀ c ∈ p, f c = true)
    (hr : ∀ c, rest.head? = some c → f c = false) :
    (p ++ rest).takeWhile f = p ∧ (p ++ rest).dropWhile f = rest := by
  induction p with
  | nil =>
    cases rest with
    | nil => simp
    | cons d ds =>
      have hd := hr d rfl
      simp [List.takeWhile_cons, List.dropWhile_cons, hd]
  | cons a as ih =>
    have ha : f a = true := hp a (by simp)
    have ih2 := ih (fun c hc => hp c (by simp [hc]))
    simp [List.takeWhile_cons, List.dropWhile_cons, ha, ih2.1, ih2.2]

theorem isGeneChar_pySpace (c : Char) (h : isPySpace c = true) :
    isGeneChar c = false := by
  simp only [isPySpace, Bool.or_eq_true, beq_iff_eq] at h
  rcases h with ((((h | h) | h) | h) | h) | h <;> subst h <;> decide

theorem extractGeneList_of_pattern (p w r : List Char) (hp : p ≠ [])
    (hgp : ∀ c ∈ p, isGeneChar c = true) (hw : ∀ c ∈ w, isPySpace c = true) :
    extractGeneList (p ++ w ++ '(' :: r) = p := by
  have hhead : ∀ c, (w ++ '(' :: r).head? = some c → isGeneChar c = false := by
    intro c hc
    cases w with
    | nil =>
      simp only [List.nil_append, List.head?_cons, Option.some.injEq] at hc
      subst hc; decide
    | cons d ds =>
      simp only [List.cons_append, List.head?_cons, Option.some.injEq] at hc
      subst hc
      exact isGeneChar_pySpace d (hw d (by simp))
  have h1 := takeWhile_dropWhile_split isGeneChar p (w ++ '(' :: r) hgp hhead
  have hhead2 : ∀ c, ('(' :: r).head? = some c → isPySpace c = false := by
    intro c hc
    simp only [List.head?_cons, Option.some.injEq] at hc
    subst hc; decide
  have h2 := takeWhile_dropWhile_split isPySpace w ('(' :: r) hw hhead2
  rw [List.append_assoc]
  simp only [extractGeneList, h1.1, h1.2, h2.2, List.head?_cons,
    List.isEmpty_eq_false.mpr hp, Bool.not_false, beq_self_eq_true,
    Bool.and_self, if_true]

theorem hasSymbolPattern_iff (cs : List Char) :
    HasSymbolPattern cs ↔
      (!(cs.takeWhile isGeneChar).isEmpty &&
        (((cs.dropWhile isGeneChar).dropWhile isPySpace).head? == some '(')) = true := by
  constructor
  · rintro ⟨p, w, r, rfl, hp, hgp, hw⟩
    have hhead : ∀ c, (w ++ '(' :: r).head? = some c → isGeneChar c = false := by
      intro c hc
      cases w with
      | nil =>
        simp only [List.nil_append, List.head?_cons, Option.some.injEq] at hc
        subst hc; decide
      | cons d ds =>
        simp only [List.cons_append, List.head?_cons, Option.some.injEq] at hc
        subst hc
        exact isGeneChar_pySpace d (hw d (by simp))
    have h1 := takeWhile_dropWhile_split isGeneChar p (w ++ '(' :: r) hgp hhead
    have hhead2 : ∀ c, ('(' :: r).head? = some c → isPySpace c = false := by
      intro c hc
      simp only [List.head?_cons, Option.some.injEq] at hc
      subst hc; decide
    have h2 := takeWhile_dropWhile_split isPySpace w ('(' :: r) hw hhead2
    rw [List.append_assoc, h1.1, h1.2, h2.2]
    simp [List.isEmpty_eq_false.mpr hp]
  · intro h
    simp only [Bool.and_eq_true, Bool.not_eq_true', List.isEmpty_eq_false,
      beq_iff_eq] at h
    obtain ⟨h1, h2⟩ := h
    refine ⟨cs.takeWhile isGeneChar, (cs.dropWhile isGeneChar).takeWhile isPySpace,
      ((cs.dropWhile isGeneChar).dropWhile isPySpace).tail, ?_, h1,
      fun c hc => List.mem_takeWhile_imp hc, fun c hc => List.mem_takeWhile_imp hc⟩
    have e3 : (cs.dropWhile isGeneChar).dropWhile isPySpace =
        '(' :: ((cs.dropWhile isGeneChar).dropWhile isPySpace).tail := by
      cases hd : (cs.dropWhile isGeneChar).dropWhile isPySpace with
      | nil => rw [hd] at h2; simp at h2
      | cons x xs =>
        rw [hd] at h2
        simp only [List.head?_cons, Option.some.injEq] at h2
        subst h2
        simp
    rw [← e3, List.append_assoc, List.takeWhile_append_dropWhile,
      List.takeWhile_append_dropWhile]

/-- C6: symbol extraction returns the leading gene-character token when it
is immediately followed (after optional whitespace) by a parenthesis,
returns the full column name unchanged when no such pattern exists, and
behaves as specified on "MYC (4609)", "PTEN" and "ABC-1 (100)". -/
theorem C6_extract_gene_name :
    (∀ p w r : List Char, p ≠ [] → (∀ c ∈ p, isGeneChar c = true) →
      (∀ c ∈ w, isPySpace c = true) →
      extractGeneList (p ++ w ++ '(' :: r) = p) ∧
    (∀ cs : List Char, ¬HasSymbolPattern cs → extractGeneList cs = cs) ∧
    extract_gene_name "MYC (4609)" = "MYC" ∧
    extract_gene_name "PTEN" = "PTEN" ∧
    extract_gene_name "ABC-1 (100)" = "ABC-1" := by
  refine ⟨fun p w r hp hgp hw => extractGeneList_of_pattern p w r hp hgp hw,
    fun cs hcs => ?_, by decide, by decide, by decide⟩
  rw [hasSymbolPattern_iff] at hcs
  have hfalse : (!(cs.takeWhile isGeneChar).isEmpty &&
      (((cs.dropWhile isGeneChar).dropWhile isPySpace).head? == some '(')) = false := by
    revert hcs
    cases (!(cs.takeWhile isGeneChar).isEmpty &&
      (((cs.dropWhile isGeneChar).dropWhile isPySpace).head? == some '(')) <;> simp
  simp only [extractGeneList, hfalse, Bool.false_eq_true, if_false]

theorem C6_witness :
    extractGeneList (['M', 'Y', 'C'] ++ [' '] ++ '(' :: ['4', ')']) = ['M', 'Y', 'C'] ∧
    extractGeneList "PTEN".toList = "PTEN".toList :=
  ⟨C6_extract_gene_name.1 ['M', 'Y', 'C'] [' '] ['4', ')'] (by decide) (by decide)
      (by decide),
    C6_extract_gene_name.2.1 "PTEN".toList
      (by rw [hasSymbolPattern_iff]; decide)⟩

/-- C8: the lineage column is the first column whose name contains
"lineage" case-insensitively and does not contain "sub"
case-insensitively; on columns Lineage, Lineage_Sub_type, MYC (4609) it
is "Lineage"; and when no such column exists the aggregator returns no
data instead of failing. -/
theorem C8_lineage_column_selection :
    (∀ (t : Table) (c : String), find_lineage_col t = some c →
      isLineageColName c = true ∧
      ∃ pre post, t.colNames = pre ++ c :: post ∧
        ∀ d ∈ pre, isLineageColName d = false) ∧
    find_lineage_col exLineage3 = some "Lineage" ∧
    (∀ (t : Table) (genes : List String),
      find_lineage_col t = none → get_lineage_data t genes = none) := by
  refine ⟨fun t c h => ?_, by decide, fun t genes h => ?_⟩
  · rw [find_lineage_col, List.find?_eq_some] at h
    obtain ⟨hpred, pre, post, heq, hall⟩ := h
    exact ⟨hpred, pre, post, heq, fun d hd => by simpa using hall d hd⟩
  · simp [get_lineage_data, h]

theorem C8_witness :
    isLineageColName "Lineage" = true ∧
    get_lineage_data exNoLineageTable ["MYC (4609)"] = none :=
  ⟨(C8_lineage_column_selection.1 exLineage3 "Lineage" (by decide)).1,
    C8_lineage_column_selection.2.2 exNoLineageTable ["MYC (4609)"] (by decide)⟩

/-- C3 as stated is false at this input: a numeric column with exactly 10
non-missing values is skipped by the prefilter even though the claimed
skip condition (conversion failure or fewer than 10 non-missing values)
does not hold for it. -/
theorem C3_counterexample :
    ¬(passes_prefilter exCol10 = false ↔
      (exCol10.isNumericDtype = false ∨ exCol10.nonMissing.length < 10)) := by
  decide

/-- C3 amended: a column is skipped before the mean/std test iff it is
not of numeric dtype or has at most 10 (rather than fewer than 10)
non-missing values, and every column skipped this way is recorded as
metadata. -/
theorem C3_prefilter_boundary :
    (∀ cv : ColVals, passes_prefilter cv = false ↔
      (cv.isNumericDtype = false ∨ cv.nonMissing.length ≤ 10)) ∧
    (∀ t : Table, ∀ c ∈ t.cols, passes_prefilter c.2 = false → c ∈ meta_cols t) := by
  constructor
  · intro cv
    cases cv with
    | num vs =>
      simp only [passes_prefilter, ColVals.isNumericDtype, ColVals.nonMissing,
        Bool.true_and, decide_eq_false_iff_not, not_lt]
      simp
    | txt vs =>
      simp [passes_prefilter, ColVals.isNumericDtype]
  · intro t c hc h
    refine List.mem_filter.mpr ⟨hc, ?_⟩
    simp [isScoreCol, h]

/-- Example single-column table holding the 10-value column. -/
def exCol10Table : Table :=
  { nrows := 10, cols := [("n10", exCol10)] }

theorem C3_witness :
    (passes_prefilter exCol10 = false ↔
      (exCol10.isNumericDtype = false ∨ exCol10.nonMissing.length ≤ 10)) ∧
    ("n10", exCol10) ∈ meta_cols exCol10Table :=
  ⟨C3_prefilter_boundary.1 exCol10,
    C3_prefilter_boundary.2 exCol10Table ("n10", exCol10) (by decide) (by decide)⟩

theorem qmean_const (q : ℚ) (xs : List ℚ) (hne : xs ≠ [])
    (h : ∀ x ∈ xs, x = q) : qmean xs = q := by
  have hrep : xs = List.replicate xs.length q := List.eq_replicate_length.mpr h
  have hsum : xs.sum = (xs.length : ℚ) * q := by
    conv_lhs => rw [hrep]
    rw [List.sum_replicate, nsmul_eq_mul]
  have h0 : xs.length ≠ 0 := by
    simpa using hne
  have hlen : (xs.length : ℚ) ≠ 0 := Nat.cast_ne_zero.mpr h0
  rw [qmean, hsum, mul_div_cancel_left₀ _ hlen]

theorem qvar_const (q : ℚ) (xs : List ℚ) (h : ∀ x ∈ xs, x = q) :
    qvar xs = 0 := by
  cases hxs : xs with
  | nil => simp [qvar]
  | cons y ys =>
    rw [← hxs]
    have hne : xs ≠ [] := by simp [hxs]
    have hmean := qmean_const q xs hne h
    have hzero : (xs.map (fun x => (x - qmean xs) ^ 2)).sum = 0 := by
      apply List.sum_eq_zero
      intro z hz
      obtain ⟨x, hx, rfl⟩ := List.mem_map.mp hz
      rw [h x hx, hmean]
      ring
    rw [qvar, hzero, zero_div]

/-- C5: a column is classified as a score column iff it has numeric
dtype, more than 10 non-missing values, mean strictly inside (-5, 2) and
standard deviation strictly above 0.01; a column whose non-missing values
are all identical is rejected whatever its mean, and a column with mean 5
is rejected whatever its standard deviation. -/
theorem C5_classifier :
    (∀ c : String × ColVals, isScoreCol c = true ↔ scoreColumnSpec c) ∧
    (∀ (name : String) (q : ℚ) (cv : ColVals),
      (∀ x ∈ cv.nonMissing, x = q) → isScoreCol (name, cv) = false) ∧
    (∀ (name : String) (cv : ColVals),
      qmean cv.nonMissing = 5 → isScoreCol (name, cv) = false) := by
  refine ⟨fun c => ?_, fun name q cv h => ?_, fun name cv h => ?_⟩
  · simp only [isScoreCol, passes_prefilter, passes_stats, scoreColumnSpec,
      Bool.and_eq_true, decide_eq_true_eq]
    tauto
  · have hv := qvar_const q cv.nonMissing h
    have hlt : ¬((1 / 100 : ℚ) ^ 2 < qvar cv.nonMissing) := by
      rw [hv]
      exact not_lt.mpr (by positivity)
    have hd : decide ((1 / 100 : ℚ) ^ 2 < qvar cv.nonMissing) = false :=
      decide_eq_false hlt
    simp only [isScoreCol, passes_stats, hd, Bool.and_false]
  · have hlt : ¬(qmean cv.nonMissing < 2) := by
      rw [h]; norm_num
    have hd : decide (qmean cv.nonMissing < 2) = false := decide_eq_false hlt
    simp only [isScoreCol, passes_stats, hd, Bool.and_false, Bool.false_and]

theorem C5_witness :
    scoreColumnSpec ("MYC (4609)", exColA) ∧
    isScoreCol ("const", exConstCol) = false ∧
    isScoreCol ("mean5", ColVals.num [some 5]) = false :=
  ⟨(C5_classifier.1 ("MYC (4609)", exColA)).mp (by decide),
    C5_classifier.2.1 "const" 0 exConstCol (by decide),
    C5_classifier.2.2 "mean5" (ColVals.num [some 5]) (by decide)⟩

/-- C9: when no column is classified as a score column, the ranking
computation signals the failure with the human-readable message of
app.py line 175, never returns a ranking, and the diagnostic panel
exposes the table's column count. -/
theorem C9_no_score_columns (t : Table) (h : gene_cols t = []) :
    compute_gene_rankings t = Except.error NO_SCORE_COLS_MSG ∧
    NO_SCORE_COLS_MSG ≠ "" ∧
    (∀ rk n, compute_gene_rankings t ≠ Except.ok (rk, n)) ∧
    (ranking_failure_diagnostics t).2.1.2 = t.cols.length ∧
    (ranking_failure_diagnostics t).2.2 =
      (t.cols.map (fun c => dtypeName c.2)).take 15 := by
  have he : (gene_cols t).isEmpty = true := by simp [h]
  refine ⟨?_, by decide, ?_, rfl, rfl⟩
  · simp [compute_gene_rankings, he]
  · intro rk n hok
    rw [compute_gene_rankings, if_pos he] at hok
    exact Except.noConfusion hok

theorem C9_witness :
    compute_gene_rankings exMetaTable = Except.error NO_SCORE_COLS_MSG ∧
    (ranking_failure_diagnostics exMetaTable).2.1.2 = exMetaTable.cols.length :=
  ⟨(C9_no_score_columns exMetaTable (by decide)).1,
    (C9_no_score_columns exMetaTable (by decide)).2.2.2.1⟩

/-- C10: even when a lineage column exists, the aggregator returns no
data — the same failure value as the missing-lineage-column case — as
soon as no requested symbol equals any raw column name
case-insensitively, so no long-format record is produced. -/
theorem C10_no_matching_gene (t : Table) (genes : List String) (lc : String)
    (hlc : find_lineage_col t = some lc)
    (h : ∀ g ∈ genes, ∀ c ∈ t.colNames, sUpper c ≠ sUpper g) :
    get_lineage_data t genes = none := by
  have hnone : ∀ g ∈ genes, df_cols_upper_get t (sUpper g) = none := by
    intro g hg
    rw [df_cols_upper_get, List.find?_eq_none]
    intro c hc
    simp only [beq_iff_eq]
    exact h g hg c (List.mem_reverse.mp hc)
  have hempty : genes.filterMap (fun g => df_cols_upper_get t (sUpper g)) = [] :=
    List.filterMap_eq_nil_iff.mpr hnone
  simp [get_lineage_data, hlc, hempty]

theorem C10_witness : get_lineage_data exLineage3 ["KRAS"] = none :=
  C10_no_matching_gene exLineage3 ["KRAS"] "Lineage" (by decide) (by decide)

/-- C7: gene matching is case-insensitive; the matched list is the
gene-symbol projection of the matching ranking rows, hence in the
ranking's order and canonical casing; the not-found list is the sublist
of the request whose uppercased form matches no ranking row, in the
user's input order; and the worked example behaves as specified. -/
theorem C7_gene_name_matcher (rk : List GeneRankEntry) (gl : List String) :
    (filter_genes_by_list rk gl).1 =
      (rk.filter (fun e => gl.any (fun g => e.gene_upper == sUpper g))).map
        (fun e => e.gene) ∧
    ((filter_genes_by_list rk gl).1).Sublist (rk.map (fun e => e.gene)) ∧
    ((filter_genes_by_list rk gl).2).Sublist gl ∧
    (∀ g, g ∈ (filter_genes_by_list rk gl).2 ↔
      g ∈ gl ∧ ∀ e ∈ rk, e.gene_upper ≠ sUpper g) ∧
    filter_genes_by_list exampleRanking ["myc", "Foo", "PTEN"] =
      (["MYC", "PTEN"], ["Foo"]) := by
  have hpt : ∀ e : GeneRankEntry,
      (gl.map sUpper).contains e.gene_upper =
        gl.any (fun g => e.gene_upper == sUpper g) := by
    intro e
    rw [List.contains_eq_any_beq, List.any_map]
    rfl
  have hfil : rk.filter (fun e => (gl.map sUpper).contains e.gene_upper) =
      rk.filter (fun e => gl.any (fun g => e.gene_upper == sUpper g)) :=
    List.filter_congr (fun e _ => hpt e)
  have key : ∀ g, g ∈ gl →
      (((rk.filter (fun e => (gl.map sUpper).contains e.gene_upper)).map
          (fun e => e.gene_upper)).contains (sUpper g) = true ↔
        ∃ e ∈ rk, e.gene_upper = sUpper g) := by
    intro g hg
    constructor
    · intro hc
      rw [List.contains_eq_any_beq, List.any_eq_true] at hc
      obtain ⟨x, hx, hbeq⟩ := hc
      obtain ⟨e, he, rfl⟩ := List.mem_map.mp hx
      obtain ⟨he1, _⟩ := List.mem_filter.mp he
      exact ⟨e, he1, (beq_iff_eq.mp hbeq).symm⟩
    · rintro ⟨e, he, heq⟩
      rw [List.contains_eq_any_beq, List.any_eq_true]
      refine ⟨e.gene_upper, ?_, by simp [heq]⟩
      apply List.mem_map_of_mem
      apply List.mem_filter.mpr
      refine ⟨he, ?_⟩
      rw [List.contains_eq_any_beq, List.any_eq_true]
      exact ⟨sUpper g, List.mem_map_of_mem _ hg, by simp [heq]⟩
  refine ⟨?_, ?_, ?_, ?_, by decide⟩
  · show (rk.filter (fun e => (gl.map sUpper).contains e.gene_upper)).map
        (fun e => e.gene) = _
    rw [hfil]
  · show ((rk.filter (fun e => (gl.map sUpper).contains e.gene_upper)).map
        (fun e => e.gene)).Sublist (rk.map (fun e => e.gene))
    exact (List.filter_sublist rk).map _
  · exact List.filter_sublist gl
  · intro g
    show g ∈ gl.filter (fun g =>
      !((rk.filter (fun e => (gl.map sUpper).contains e.gene_upper)).map
          (fun e => e.gene_upper)).contains (sUpper g)) ↔ _
    rw [List.mem_filter]
    constructor
    · rintro ⟨hg, hb⟩
      rw [Bool.not_eq_true'] at hb
      refine ⟨hg, fun e he heq => ?_⟩
      have hcontra := (key g hg).mpr ⟨e, he, heq⟩
      rw [hb] at hcontra
      exact Bool.noConfusion hcontra
    · rintro ⟨hg, hall⟩
      refine ⟨hg, ?_⟩
      rw [Bool.not_eq_true']
      cases hc : ((rk.filter (fun e => (gl.map sUpper).contains e.gene_upper)).map
          (fun e => e.gene_upper)).contains (sUpper g) with
      | false => rfl
      | true =>
        obtain ⟨e, he, heq⟩ := (key g hg).mp hc
        exact absurd heq (hall e he)

theorem C7_witness :
    filter_genes_by_list exampleRanking ["myc", "Foo", "PTEN"] =
      (["MYC", "PTEN"], ["Foo"]) :=
  (C7_gene_name_matcher exampleRanking ["myc", "Foo", "PTEN"]).2.2.2.2

theorem df_cols_upper_get_spec (t : Table) (k c : String)
    (h : df_cols_upper_get t k = some c) :
    c ∈ t.colNames ∧ sUpper c = k := by
  rw [df_cols_upper_get] at h
  have hb := List.find?_some h
  exact ⟨List.mem_reverse.mp (List.mem_of_find?_eq_some h), beq_iff_eq.mp hb⟩

theorem getCol?_mem (t : Table) (n : String) (cv : ColVals)
    (h : t.getCol? n = some cv) : (n, cv) ∈ t.cols := by
  rw [Table.getCol?] at h
  obtain ⟨c, hfind, hc2⟩ := Option.map_eq_some'.mp h
  have hb := List.find?_some hfind
  have h1 : c.1 = n := beq_iff_eq.mp hb
  have hmem := List.mem_of_find?_eq_some hfind
  cases c
  subst h1
  subst hc2
  exact hmem

theorem getCol?_of_mem_colNames (t : Table) (n : String)
    (h : n ∈ t.colNames) : ∃ cv, t.getCol? n = some cv := by
  obtain ⟨c, hc, hc1⟩ := List.mem_map.mp h
  have hsome : (t.cols.find? (fun c => c.1 == n)).isSome = true :=
    List.find?_isSome.mpr ⟨c, hc, by simp [hc1]⟩
  obtain ⟨c0, hc0⟩ := Option.isSome_iff_exists.mp hsome
  exact ⟨c0.2, by rw [Table.getCol?, hc0]; rfl⟩

theorem ColVals.cells_length (cv : ColVals) : cv.cells.length = cv.size := by
  cases cv <;> simp [ColVals.cells, ColVals.size]

theorem cellsOf_length (t : Table) (n : String) (hrect : t.Rect)
    (hn : n ∈ t.colNames) : (cellsOf t n).length = t.nrows := by
  obtain ⟨cv, hcv⟩ := getCol?_of_mem_colNames t n hn
  rw [cellsOf, hcv]
  simpa [ColVals.cells_length] using hrect (n, cv) (getCol?_mem t n cv hcv)

theorem filterMap_eq_map_of_mem {α β : Type} (l : List α) (f : α → Option β)
    (g : α → β) (h : ∀ a ∈ l, f a = some (g a)) : l.filterMap f = l.map g := by
  induction l with
  | nil => rfl
  | cons a as ih =>
    rw [List.filterMap_cons, h a (by simp), List.map_cons,
      ih (fun x hx => h x (by simp [hx]))]

theorem contains_of_mem (l : List String) (a : String) (h : a ∈ l) :
    l.contains a = true := by
  rw [List.contains_eq_any_beq, List.any_eq_true]
  exact ⟨a, h, by simp⟩

/-- C4: every matched symbol is resolved to an actual column name whose
uppercased form equals the request's uppercased form; the aggregator
output is the concatenation, gene by gene in request order, of per-gene
blocks; and each block holds exactly one record per sample row, carrying
that row's lineage cell, that row's score cell and the resolved column
name. -/
theorem C4_lineage_aggregation (t : Table) (genes : List String) (lc : String)
    (hrect : t.Rect) (hlc : find_lineage_col t = some lc)
    (hact : genes.filterMap (fun g => df_cols_upper_get t (sUpper g)) ≠ []) :
    ∃ acts : List String,
      acts = genes.filterMap (fun g => df_cols_upper_get t (sUpper g)) ∧
      (∀ c ∈ acts, c ∈ t.colNames ∧ ∃ g ∈ genes, sUpper c = sUpper g) ∧
      get_lineage_data t genes = some (acts.flatMap (fun c => gene_block t lc c)) ∧
      (∀ c ∈ acts,
        (gene_block t lc c).length = t.nrows ∧
        (gene_block t lc c).map (fun x => x.gene) = List.replicate t.nrows c ∧
        (gene_block t lc c).map (fun x => x.lineage) = cellsOf t lc ∧
        (gene_block t lc c).map (fun x => x.crispr_score) = cellsOf t c) := by
  have hres : ∀ c ∈ genes.filterMap (fun g => df_cols_upper_get t (sUpper g)),
      c ∈ t.colNames ∧ ∃ g ∈ genes, sUpper c = sUpper g := by
    intro c hc
    obtain ⟨g, hg, hfg⟩ := List.mem_filterMap.mp hc
    obtain ⟨hmem, hup⟩ := df_cols_upper_get_spec t (sUpper g) c hfg
    exact ⟨hmem, g, hg, hup⟩
  have hlcn : lc ∈ t.colNames := by
    rw [find_lineage_col] at hlc
    exact List.mem_of_find?_eq_some hlc
  have hlen_l : (cellsOf t lc).length = t.nrows := cellsOf_length t lc hrect hlcn
  refine ⟨genes.filterMap (fun g => df_cols_upper_get t (sUpper g)), rfl, hres,
    ?_, ?_⟩
  · have hacts_ne :
        (genes.filterMap (fun g => df_cols_upper_get t (sUpper g))).isEmpty = false :=
      List.isEmpty_eq_false.mpr hact
    have hfm : (genes.filterMap (fun g => df_cols_upper_get t (sUpper g))).filterMap
        (fun gene => if t.colNames.contains gene then some (gene_block t lc gene)
          else none) =
        (genes.filterMap (fun g => df_cols_upper_get t (sUpper g))).map
          (gene_block t lc) := by
      apply filterMap_eq_map_of_mem
      intro c hc
      rw [contains_of_mem t.colNames c (hres c hc).1]
      simp
    have hmap_ne :
        ((genes.filterMap (fun g => df_cols_upper_get t (sUpper g))).map
          (gene_block t lc)).isEmpty = false := by
      rw [List.isEmpty_eq_false]
      simpa using hact
    simp only [get_lineage_data, hlc, hacts_ne, Bool.false_eq_true, if_false,
      hfm, hmap_ne, List.flatMap_def]
  · intro c hc
    have hcn : c ∈ t.colNames := (hres c hc).1
    have hlen_c : (cellsOf t c).length = t.nrows := cellsOf_length t c hrect hcn
    refine ⟨?_, ?_, ?_, ?_⟩
    · simp [gene_block, List.length_zip, hlen_l, hlen_c]
    · have hlz : ((cellsOf t lc).zip (cellsOf t c)).length = t.nrows := by
        simp [List.length_zip, hlen_l, hlen_c]
      rw [← hlz]
      simp only [gene_block, List.map_map, Function.comp_def]
      exact List.map_const _ _
    · simp only [gene_block, List.map_map, Function.comp_def]
      exact List.map_fst_zip _ _ (le_of_eq (hlen_l.trans hlen_c.symm))
    · simp only [gene_block, List.map_map, Function.comp_def]
      exact List.map_snd_zip _ _ (le_of_eq (hlen_c.trans hlen_l.symm))

theorem C4_witness :
    ∃ acts : List String,
      acts = ["myc (4609)"].filterMap
        (fun g => df_cols_upper_get exLineage3 (sUpper g)) ∧
      (∀ c ∈ acts, c ∈ exLineage3.colNames ∧
        ∃ g ∈ ["myc (4609)"], sUpper c = sUpper g) ∧
      get_lineage_data exLineage3 ["myc (4609)"] =
        some (acts.flatMap (fun c => gene_block exLineage3 "Lineage" c)) ∧
      (∀ c ∈ acts,
        (gene_block exLineage3 "Lineage" c).length = exLineage3.nrows ∧
        (gene_block exLineage3 "Lineage" c).map (fun x => x.gene) =
          List.replicate exLineage3.nrows c ∧
        (gene_block exLineage3 "Lineage" c).map (fun x => x.lineage) =
          cellsOf exLineage3 "Lineage" ∧
        (gene_block exLineage3 "Lineage" c).map (fun x => x.crispr_score) =
          cellsOf exLineage3 c) :=
  C4_lineage_aggregation exLineage3 ["myc (4609)"] "Lineage" (by decide)
    (by decide) (by decide)

theorem rankRows_length (N : ℕ) (ms : List (String × ℚ)) :
    ∀ i, (rankRows N i ms).length = ms.length := by
  induction ms with
  | nil => intro i; rfl
  | cons c rest ih => intro i; simp [rankRows, ih (i + 1)]

theorem rankRows_map_rank (N : ℕ) (ms : List (String × ℚ)) :
    ∀ i, (rankRows N i ms).map (fun e => e.rank) =
      List.range' (i + 1) ms.length := by
  induction ms with
  | nil => intro i; rfl
  | cons c rest ih =>
    intro i
    rw [List.length_cons, List.range'_succ]
    show (mkEntry N i c).rank ::
      (rankRows N (i + 1) rest).map (fun e => e.rank) = _
    rw [ih (i + 1)]
    rfl

theorem rankRows_map_mean (N : ℕ) (ms : List (String × ℚ)) :
    ∀ i, (rankRows N i ms).map (fun e => e.mean_score) =
      ms.map (fun c => c.2) := by
  induction ms with
  | nil => intro i; rfl
  | cons c rest ih =>
    intro i
    show (mkEntry N i c).mean_score ::
      (rankRows N (i + 1) rest).map (fun e => e.mean_score) = _
    rw [ih (i + 1)]
    rfl

theorem rankRows_percentile (N : ℕ) (ms : List (String × ℚ)) :
    ∀ i, ∀ e ∈ rankRows N i ms,
      e.percentile = ((e.rank : ℕ) : ℚ) / (N : ℚ) * 100 := by
  induction ms with
  | nil => intro i e he; simp [rankRows] at he
  | cons c rest ih =>
    intro i e he
    rcases List.mem_cons.mp he with h1 | h2
    · subst h1; rfl
    · exact ih (i + 1) e h2

theorem rankRows_getLast (N : ℕ) (ms : List (String × ℚ)) :
    ∀ i, ms ≠ [] → ∃ e, (rankRows N i ms).getLast? = some e ∧
      e ∈ rankRows N i ms ∧ e.rank = i + ms.length := by
  induction ms with
  | nil => intro i h; exact absurd rfl h
  | cons c rest ih =>
    intro i _
    cases rest with
    | nil =>
      refine ⟨mkEntry N i c, rfl, by simp [rankRows], by simp [mkEntry]⟩
    | cons d rest2 =>
      obtain ⟨e, h1, h2, h3⟩ := ih (i + 1) (by simp)
      have e1 : rankRows N i (c :: d :: rest2) =
          mkEntry N i c :: mkEntry N (i + 1) d :: rankRows N (i + 2) rest2 := rfl
      refine ⟨e, ?_, ?_, ?_⟩
      · rw [e1, List.getLast?_cons_cons]
        exact h1
      · rw [e1]
        exact List.mem_cons_of_mem _ h2
      · rw [h3]
        simp [List.length_cons]
        omega

/-- C1: whenever at least one column is classified as a score column, the
rank builder succeeds with one ranking row per score column and the row
count of the table; the ranks are exactly 1..N in list order; the mean
scores are non-decreasing along the ranking; every row's percentile is
rank / N * 100; and the first and last percentiles are 100 / N and 100. -/
theorem C1_gene_rank_builder (t : Table) (h : gene_cols t ≠ []) :
    ∃ rk : List GeneRankEntry,
      compute_gene_rankings t = Except.ok (rk, t.nrows) ∧
      rk.length = (gene_cols t).length ∧
      rk.map (fun e => e.rank) = List.range' 1 rk.length ∧
      rk.Pairwise (fun a b => a.mean_score ≤ b.mean_score) ∧
      (∀ e ∈ rk, e.percentile = ((e.rank : ℕ) : ℚ) / ((rk.length : ℕ) : ℚ) * 100) ∧
      rk.head?.map (fun e => e.percentile) = some (100 / ((rk.length : ℕ) : ℚ)) ∧
      rk.getLast?.map (fun e => e.percentile) = some 100 := by
  have hne : (gene_cols t).isEmpty = false := List.isEmpty_eq_false.mpr h
  set ms := List.insertionSort scoreLE
    ((gene_cols t).map (fun c => (c.1, qmean c.2.nonMissing))) with hms
  have hlen_ms : ms.length = (gene_cols t).length := by
    rw [hms, List.length_insertionSort, List.length_map]
  have hms_ne : ms ≠ [] := by
    intro h0
    rw [h0] at hlen_ms
    exact h (List.length_eq_zero.mp hlen_ms.symm)
  have hok : compute_gene_rankings t =
      Except.ok (rankRows ms.length 0 ms, t.nrows) := by
    simp only [compute_gene_rankings, hne, Bool.false_eq_true, if_false]
  have hrklen : (rankRows ms.length 0 ms).length = ms.length :=
    rankRows_length ms.length ms 0
  have hlq : ((ms.length : ℕ) : ℚ) ≠ 0 := by
    have : ms.length ≠ 0 := by simpa using hms_ne
    exact Nat.cast_ne_zero.mpr this
  refine ⟨rankRows ms.length 0 ms, hok, hrklen.trans hlen_ms, ?_, ?_, ?_, ?_, ?_⟩
  · rw [hrklen]
    simpa using rankRows_map_rank ms.length ms 0
  · have hsort : List.Sorted scoreLE ms := List.sorted_insertionSort scoreLE _
    have hp2 : List.Pairwise (fun a b : ℚ => a ≤ b) (ms.map (fun c => c.2)) :=
      List.pairwise_map.mpr hsort
    rw [← rankRows_map_mean ms.length ms 0] at hp2
    exact List.pairwise_map.mp hp2
  · intro e he
    rw [hrklen]
    exact rankRows_percentile ms.length ms 0 e he
  · rcases hc : ms with _ | ⟨c, rest⟩
    · exact absurd hc hms_ne
    · have hrk2 : (rankRows (c :: rest).length 0 (c :: rest)).length =
          (c :: rest).length := rankRows_length _ _ 0
      rw [hrk2]
      show some (mkEntry (c :: rest).length 0 c).percentile = _
      rw [show (mkEntry (c :: rest).length 0 c).percentile =
        (((0 + 1 : ℕ) : ℚ) / (((c :: rest).length : ℕ) : ℚ)) * 100 from rfl]
      rw [Option.some.injEq]
      push_cast
      ring
  · obtain ⟨e, h1, h2, h3⟩ := rankRows_getLast ms.length ms 0 hms_ne
    rw [h1]
    have hp := rankRows_percentile ms.length ms 0 e h2
    rw [Option.map_some', hp, h3]
    push_cast
    field_simp

theorem C1_witness :
    ∃ rk : List GeneRankEntry,
      compute_gene_rankings exRankTable = Except.ok (rk, exRankTable.nrows) ∧
      rk.length = (gene_cols exRankTable).length ∧
      rk.map (fun e => e.rank) = List.range' 1 rk.length ∧
      rk.Pairwise (fun a b => a.mean_score ≤ b.mean_score) ∧
      (∀ e ∈ rk, e.percentile = ((e.rank : ℕ) : ℚ) / ((rk.length : ℕ) : ℚ) * 100) ∧
      rk.head?.map (fun e => e.percentile) = some (100 / ((rk.length : ℕ) : ℚ)) ∧
      rk.getLast?.map (fun e => e.percentile) = some 100 :=
  C1_gene_rank_builder exRankTable (by decide)

end CrisprApp
